import Mathlib

/-!
Verification development for the two-stage air-quality pipeline
(`1_data_ingest.py` and `2_generate_prompts.py`).

The Python functions are shallowly embedded as executable Lean definitions:
dataframes become lists of rows, Python dicts become association lists with
overwrite-on-insert semantics, machine floats become `ℚ`, possibly-raising
calls return `Except`/`Option`, and missing values (`NaN`/`NaT`/`None`) are an
explicit `Cell.null` marker.  External library calls (`pandas.to_datetime`,
date formatting) are modelled by small total functions with the properties the
pipeline relies on.
-/

set_option maxRecDepth 16384

/-- Python `str.startswith`, on the character-list view of strings. -/
def strStarts (s p : String) : Bool := p.data.isPrefixOf s.data

/-- Python `str.endswith`, on the character-list view of strings. -/
def strEnds (s p : String) : Bool := p.data.isSuffixOf s.data

/-- A single dataframe cell: a string, a numeric value, a parsed datetime, or
a missing-value marker (`NaN`/`NaT`/`None`). -/
inductive Cell where
  | str : String → Cell
  | num : ℚ → Cell
  | dt : Int → Cell
  | null : Cell
deriving DecidableEq

/-- Codepoint-level model of Python `str.lower` for one character
(ASCII letters are mapped to lower case, everything else is unchanged). -/
def lowerCode (n : Nat) : Nat := if 65 ≤ n ∧ n ≤ 90 then n + 32 else n

/-- One character of `col.lower().replace(" ", "_")`: lower-case it, then turn
a space (codepoint 32) into an underscore (codepoint 95). -/
def normCode (n : Nat) : Nat :=
  if lowerCode n = 32 then 95 else lowerCode n

/-- Column-name normalisation from `transform_data_for_rag`:
`col.lower().replace(" ", "_")`, on the codepoint-list model of strings. -/
def normName (s : List Nat) : List Nat := s.map normCode

/-- The codepoints of a Lean string literal (used for column-name constants). -/
def strCodes (s : String) : List Nat := s.data.map Char.toNat

/-- The `location` column name. -/
def locationCol : List Nat := strCodes "location"

/-- The `date` column name. -/
def dateCol : List Nat := strCodes "date"

/-- The `timestamp` column name. -/
def timestampCol : List Nat := strCodes "timestamp"

/-- A pandas DataFrame: a list of column names (strings as codepoint lists)
and a list of rows of cells.  In pandas every row has exactly one cell per
column; that invariant is the separate predicate `dfWf`. -/
structure DataFrame where
  cols : List (List Nat)
  rows : List (List Cell)
deriving DecidableEq

/-- Well-formedness of a dataframe: each row has one cell per column. -/
def dfWf (df : DataFrame) : Prop := ∀ r ∈ df.rows, r.length = df.cols.length

instance (df : DataFrame) : Decidable (dfWf df) := by
  unfold dfWf; infer_instance

/-- Cell access with the pandas convention that an absent position reads as
missing. -/
def getCell (r : List Cell) (i : Nat) : Cell := r.getD i Cell.null

/-- Digit-sequence parser used by the date-string model. -/
def parseDigitsAux (acc : Nat) : List Char → Option Nat
  | [] => some acc
  | c :: cs =>
    if 48 ≤ c.toNat ∧ c.toNat ≤ 57 then parseDigitsAux (acc * 10 + (c.toNat - 48)) cs
    else none

/-- Modelled from the external library: the date-string parser inside
`pandas.to_datetime`, abstracted to an epoch-day reading of digit strings;
anything unparseable yields `none` (which `errors='coerce'` turns into
`NaT`). -/
def parseDateStr (s : String) : Option Nat :=
  match s.data with
  | [] => none
  | l => parseDigitsAux 0 l

/-- Modelled from the external library: `pandas.to_datetime(-, errors='coerce')`
applied to one cell.  Already-parsed datetimes pass through unchanged, strings
either parse or coerce to the null marker (`NaT`), numbers are interpreted as
epoch offsets, and missing stays missing. -/
def parseTs : Cell → Cell
  | Cell.str s =>
    match parseDateStr s with
    | some n => Cell.dt (Int.ofNat n)
    | none => Cell.null
  | Cell.num q => Cell.dt q.floor
  | Cell.dt t => Cell.dt t
  | Cell.null => Cell.null

/-- Position of the first column carrying a label (the column `df[name]`
selects). -/
def colIdx (cols : List (List Nat)) (name : List Nat) : Nat :=
  match cols with
  | [] => 0
  | c :: rest => if c = name then 0 else colIdx rest name + 1

/-- The value assigned to a row's `timestamp` cell: parse the cell of the
(first) `date` column of that row. -/
def tsValue (cols : List (List Nat)) (r : List Cell) : Cell :=
  parseTs (getCell r (colIdx cols dateCol))

/-- Step of `transform_data_for_rag`: `if 'location' not in df.columns:
df['location'] = "Unknown"`. -/
def addLocationCol (df : DataFrame) : DataFrame :=
  if locationCol ∈ df.cols then df
  else ⟨df.cols ++ [locationCol], df.rows.map (fun r => r ++ [Cell.str "Unknown"])⟩

/-- Step of `transform_data_for_rag`: `if 'date' in df.columns:
df['timestamp'] = pd.to_datetime(df['date'], errors='coerce')`.  Assigning an
existing column label overwrites the cells at every position carrying that
label; assigning a fresh label appends a new column. -/
def setTimestamp (df : DataFrame) : DataFrame :=
  if dateCol ∈ df.cols then
    if timestampCol ∈ df.cols then
      ⟨df.cols, df.rows.map (fun r =>
        List.zipWith (fun cn c => if cn = timestampCol then tsValue df.cols r else c) df.cols r)⟩
    else
      ⟨df.cols ++ [timestampCol], df.rows.map (fun r => r ++ [tsValue df.cols r])⟩
  else df

/-- Worker for `drop_duplicates()`: keep a row exactly when it has not been
seen before. -/
def dropDupFirstAux (seen : List (List Cell)) : List (List Cell) → List (List Cell)
  | [] => []
  | r :: rs =>
    if r ∈ seen then dropDupFirstAux seen rs
    else r :: dropDupFirstAux (r :: seen) rs

/-- `DataFrame.drop_duplicates()` with the default `keep='first'`: keep the
first occurrence of each row value. -/
def dropDupFirst (l : List (List Cell)) : List (List Cell) := dropDupFirstAux [] l

/-- `transform_data_for_rag` from `1_data_ingest.py`: normalise column names,
default a missing `location` column to `"Unknown"`, derive `timestamp` from
`date`, then `drop_duplicates().dropna()`. -/
def transform_data_for_rag (df : DataFrame) : DataFrame :=
  let df2 := addLocationCol ⟨df.cols.map normName, df.rows⟩
  let df3 := setTimestamp df2
  ⟨df3.cols, (dropDupFirst df3.rows).filter (fun r => !r.contains Cell.null)⟩

/-- A calendar day as produced by `generate_date_range` (year, month, day). -/
structure CalDay where
  y : Nat
  m : Nat
  d : Nat
deriving DecidableEq

/-- Zero-padded two-digit rendering, as `strftime("%m")` / `strftime("%d")`. -/
def pad2 (n : Nat) : String := if n < 10 then "0" ++ toString n else toString n

/-- Four-digit year rendering, as `strftime("%Y")`. -/
def pad4 (n : Nat) : String :=
  if n < 10 then "000" ++ toString n
  else if n < 100 then "00" ++ toString n
  else if n < 1000 then "0" ++ toString n
  else toString n

/-- The month-level listing key built in `download_data_to_dataframe`:
`records/csv.gz/locationid={id}/year={YYYY}/month={MM}/`. -/
def monthKeyStart (locId : Int) (day : CalDay) : String :=
  "records/csv.gz/locationid=" ++ toString locId ++ "/year=" ++ pad4 day.y ++
    "/month=" ++ pad2 day.m ++ "/"

/-- The exact-day filename ending checked by `download_data_to_dataframe`:
`{YYYY}{MM}{DD}.csv.gz`. -/
def dayFileSuffix (day : CalDay) : String :=
  pad4 day.y ++ pad2 day.m ++ pad2 day.d ++ ".csv.gz"

/-- One object of the public archive bucket: its key and the rows of the
gzipped CSV stored under that key. -/
structure ArchObj where
  key : String
  rows : List (List Cell)
deriving DecidableEq

/-- `list_objects_v2(Bucket=…, Prefix=p)`: the objects whose key begins with
`p`.  The real response carries a `Contents` field exactly when this list is
non-empty. -/
def listObjectsV2 (archive : List ArchObj) (p : String) : List ArchObj :=
  archive.filter (fun o => strStarts o.key p)

/-- Body of the inner loop of `download_data_to_dataframe` for one
(location, day) pair, threading the accumulator
(consolidated rows, failed-location list). -/
def downloadStep (archive : List ArchObj) (locId : Int)
    (acc : List (List Cell) × List Int) (day : CalDay) :
    List (List Cell) × List Int :=
  let listing := listObjectsV2 archive (monthKeyStart locId day)
  if listing.isEmpty then
    (acc.1, acc.2 ++ [locId])
  else
    (acc.1 ++ (listing.filter (fun o => strEnds o.key (dayFileSuffix day))).flatMap ArchObj.rows,
      acc.2)

/-- `download_data_to_dataframe` from `1_data_ingest.py`: iterate the
Cartesian product of location ids and days; when the month-level listing has a
`Contents` field, concatenate the rows of every object whose key ends with the
exact day's filename; when the listing is empty, append the location id to the
failure tracking list.  Returns (consolidated rows, failed locations). -/
def download_data_to_dataframe (archive : List ArchObj) (locationIds : List Int)
    (days : List CalDay) : List (List Cell) × List Int :=
  locationIds.foldl
    (fun acc locId => days.foldl (downloadStep archive locId) acc)
    ([], [])

/-- The rows contributed by one (location, day) pair: nothing when the
month-level listing is empty, otherwise the concatenated rows of the objects
matching the exact day's filename ending. -/
def pairRows (archive : List ArchObj) (locId : Int) (day : CalDay) : List (List Cell) :=
  let listing := listObjectsV2 archive (monthKeyStart locId day)
  if listing.isEmpty then []
  else (listing.filter (fun o => strEnds o.key (dayFileSuffix day))).flatMap ArchObj.rows

/-- Decides whether a (location, day) pair lands in the failure tracking list:
its month-level listing is empty. -/
def pairFails (archive : List ArchObj) (locId : Int) (day : CalDay) : Bool :=
  (listObjectsV2 archive (monthKeyStart locId day)).isEmpty

/-- `main` of `1_data_ingest.py`: `NUMBER_OF_DAYS` is read from the
environment with default 10 and then immediately overwritten by the hardcoded
value 30 (the line flagged "After Debug Uncomment the above and comment
below"). -/
def mainNumberOfDays (envNumberOfDays : Option Nat) : Nat :=
  let _fromEnv := envNumberOfDays.getD 10
  30

/-- `main` of `1_data_ingest.py`: `start_date = end_date -
timedelta(days=NUMBER_OF_DAYS)`, on an epoch-day model of datetimes. -/
def mainStartDate (endDate : Int) (envNumberOfDays : Option Nat) : Int :=
  endDate - mainNumberOfDays envNumberOfDays

/-- One result object of the `/v3/locations` response.  The `id` field is
accessed unconditionally (`location["id"]`); `name`, `country.name` and
`provider.name` are read with empty-string defaults, modelled as options. -/
structure LocObj where
  id : Int
  name : Option String
  country : Option String
  provider : Option String
deriving DecidableEq

/-- The Location Metadata Record built by `extract_metadata_fields`. -/
structure MetaRecord where
  location_id : Int
  location_name : String
  country : String
  provider : String
deriving DecidableEq

/-- `extract_metadata_fields` from `1_data_ingest.py`: project the metadata
fields used for enrichment, defaulting absent fields to the empty string. -/
def extract_metadata_fields (l : LocObj) : MetaRecord :=
  { location_id := l.id
    location_name := l.name.getD ""
    country := l.country.getD ""
    provider := l.provider.getD "" }

/-- Python-dict lookup on an association list (`d.get(k)`): the value of the
first binding carrying the key, if any. -/
def dictGet (m : List (Int × MetaRecord)) (k : Int) : Option MetaRecord :=
  match m with
  | [] => none
  | p :: rest => if p.1 = k then some p.2 else dictGet rest k

/-- Python-dict insertion on an association list: overwrite the value at an
existing key in place, otherwise append the new binding at the end (insertion
order, as Python dicts preserve). -/
def dictInsert (m : List (Int × MetaRecord)) (k : Int) (v : MetaRecord) :
    List (Int × MetaRecord) :=
  if m.any (fun p => p.1 = k) then
    m.map (fun p => if p.1 = k then (k, v) else p)
  else m ++ [(k, v)]

/-- The metadata dictionary built by the loop of `get_location_metadata`:
`metadata[location["id"]] = extract_metadata_fields(location)` over the
results in order. -/
def buildMetadata (results : List LocObj) : List (Int × MetaRecord) :=
  results.foldl (fun m l => dictInsert m l.id (extract_metadata_fields l)) []

/-- An already-parsed HTTP response of the locations endpoint: status code and
the `results` array (absent `results` reads as the empty list). -/
structure HttpResp where
  status : Nat
  results : List LocObj
deriving DecidableEq

/-- `requests.Response.raise_for_status` raises exactly for 4xx and 5xx
status codes. -/
def isHttpError (status : Nat) : Prop := 400 ≤ status ∧ status < 600

instance (s : Nat) : Decidable (isHttpError s) := by
  unfold isHttpError; infer_instance

/-- `get_location_metadata` from `1_data_ingest.py`: `raise_for_status`, then
build the id-keyed metadata dictionary from the `results` array. -/
def get_location_metadata (resp : HttpResp) : Except Nat (List (Int × MetaRecord)) :=
  if isHttpError resp.status then Except.error resp.status
  else Except.ok (buildMetadata resp.results)

/-- A row of the Consolidated Dataset as seen by the enrichment step: its
`location_id` cell plus the remaining cells. -/
structure IngRow where
  location_id : Int
  rest : List Cell
deriving DecidableEq

/-- A row after enrichment: the original row plus the two added columns. -/
structure EnrRow where
  base : IngRow
  location_name : String
  provider : String
deriving DecidableEq

/-- The per-row mapping of `enrich_data_with_metadata`:
`metadata.get(location_id, {}).get("location_name", "")` and likewise for
`provider`. -/
def enrichRow (metadata : List (Int × MetaRecord)) (r : IngRow) : EnrRow :=
  { base := r
    location_name := ((dictGet metadata r.location_id).map MetaRecord.location_name).getD ""
    provider := ((dictGet metadata r.location_id).map MetaRecord.provider).getD "" }

/-- `enrich_data_with_metadata` from `1_data_ingest.py`: map the metadata
lookup over every row of the dataframe. -/
def enrich_data_with_metadata (rows : List IngRow) (metadata : List (Int × MetaRecord)) :
    List EnrRow :=
  rows.map (enrichRow metadata)

/-- One input observation for the prompt generator: the calendar day of its
`datetime` cell (epoch-day model), its `location_name`, and the measurement
cell of the selected parameter column (`none` models `NaN`). -/
structure Obs where
  day : Int
  loc : String
  value : Option ℚ
deriving DecidableEq

/-- Insert a day into a strictly-sorted list of days, keeping it sorted and
duplicate-free. -/
def insertDay (d : Int) : List Int → List Int
  | [] => [d]
  | x :: xs =>
    if d < x then d :: x :: xs
    else if d = x then x :: xs
    else x :: insertDay d xs

/-- The distinct calendar days, in increasing order, of the rows matching the
requested location (the index of the daily resample before dropping
all-missing days). -/
def sortedDays (rows : List Obs) (loc : String) : List Int :=
  (((rows.filter (fun o => o.loc = loc)).map Obs.day)).foldr insertDay []

/-- The daily mean of `resample('D').mean()` for one day: the mean of the
non-missing measurements of that day for the requested location, or `none`
when every measurement of the day is missing (pandas `mean` skips `NaN`). -/
def dayMean (rows : List Obs) (loc : String) (d : Int) : Option ℚ :=
  let vs := (rows.filter (fun o => o.loc = loc ∧ o.day = d)).filterMap Obs.value
  if vs.isEmpty then none else some (vs.sum / (vs.length : ℚ))

/-- The `daily_data` frame of `create_daily_forecast_prompts_v4`: filter to
the location, resample to daily means, `dropna()`.  The result pairs each
surviving day with its mean, days strictly increasing.  (The preceding
`sort_values(by='datetime')` does not change the resampled result.) -/
def dailyData (rows : List Obs) (loc : String) : List (Int × ℚ) :=
  (sortedDays rows loc).filterMap (fun d => (dayMean rows loc d).map (fun q => (d, q)))

/-- `daily_data['date'].max()`: the latest resampled day, or `none` (pandas
`NaN`) when there is no data. -/
def maxDay (daily : List (Int × ℚ)) : Option Int := (daily.map Prod.fst).max?

/-- The historical slice of the zero-shot branch:
`daily_data[(date >= end - (h-1)) & (date <= end)]` (already sorted by date).
With no data at all the window comparison against `NaT` selects nothing. -/
def zsHistData (daily : List (Int × ℚ)) (h : Int) : List (Int × ℚ) :=
  match maxDay daily with
  | some e => daily.filter (fun p => e - (h - 1) ≤ p.1 ∧ p.1 ≤ e)
  | none => []

/-- Two-decimal rendering of a measurement, modelling the `:.2f` format: the
value rounded to hundredths, as a scaled integer string. -/
def fmt2 (q : ℚ) : String := toString (round (q * 100) : ℤ)

/-- Date rendering for prompt text; the `NaT` case covers the empty-data
zero-shot path. -/
def dateStr : Option Int → String
  | some d => toString d
  | none => "NaT"

/-- The historical-table header of both prompt flavours (with its trailing
newline, as in the source string literal). -/
def histHeader : String := "| Date       | Value (µg/m³) |\n|------------|---------------|\n"

/-- The prediction-table header, also used verbatim as the zero-shot
completion (no trailing newline). -/
def predHeader : String :=
  "| Date       | Predicted Value (µg/m³) |\n|------------|-------------------------|"

/-- One rendered table row: `| {date} | {value:.2f} |`. -/
def renderValRow (p : Int × ℚ) : String :=
  "| " ++ toString p.1 ++ " | " ++ fmt2 p.2 ++ " |"

/-- The rendered historical Markdown table: header plus one line per slice
row. -/
def renderHistTable (xs : List (Int × ℚ)) : String :=
  histHeader ++ String.intercalate "\n" (xs.map renderValRow)

/-- The rendered future Markdown table of the fine-tuning branch. -/
def renderFutTable (xs : List (Int × ℚ)) : String :=
  predHeader ++ "\n" ++ String.intercalate "\n" (xs.map renderValRow)

/-- The zero-shot instruction template of `create_daily_forecast_prompts_v4`. -/
def zsInstruction (locationName param startD endD fStart fEnd table : String) : String :=
  "You are an advanced forecasting system tasked with predicting daily air quality for " ++
    locationName ++ ".\n" ++
  "The data includes daily mean values for \x27" ++ param ++ "\x27 (in µg/m³).\n\n" ++
  "### Historical Data (from " ++ startD ++ " to " ++ endD ++ "):\n" ++
  table ++ "\n\n" ++
  "### Instructions:\n" ++
  "1. Forecast daily mean \x27" ++ param ++ "\x27 for each day from " ++ fStart ++ " to " ++
    fEnd ++ ".\n" ++
  "2. Provide output as a table:\n" ++ predHeader

/-- The fine-tuning instruction template of `create_daily_forecast_prompts_v4`. -/
def ftInstruction (locationName param table : String) : String :=
  "You are an advanced forecasting system tasked with predicting daily air quality for " ++
    locationName ++ ".\n" ++
  "The data includes daily mean values for \x27" ++ param ++ "\x27 (in µg/m³).\n\n" ++
  "### Historical Data:\n" ++ table ++ "\n\n" ++
  "### Instructions:\n" ++
  "1. Forecast daily mean \x27" ++ param ++ "\x27 for each day.\n" ++
  "2. Provide output as a table:\n" ++ predHeader

/-- A Prompt Record: the `{"Prompt": …, "Completion": …}` dictionary appended
to `output_list`. -/
structure PromptRec where
  Prompt : String
  Completion : String
deriving DecidableEq

/-- An entry of the branch-dependent `prompts` list: a bare instruction
string in the zero-shot branch, an instruction/response dictionary in the
fine-tuning branch. -/
inductive RawPrompt where
  | zs : String → RawPrompt
  | ft : String → String → RawPrompt
deriving DecidableEq

/-- The sliding windows of the fine-tuning branch: for
`i in range(history_length_days, len(daily_data) - forecast_days + 1)`, the
pair (`daily_data.iloc[i-h:i]`, `daily_data.iloc[i:i+f]`), guarded by
`len(daily_data) >= h + f`. -/
def ftWindows (daily : List (Int × ℚ)) (h f : Int) :
    List (List (Int × ℚ) × List (Int × ℚ)) :=
  if h + f ≤ (daily.length : Int) then
    (List.range ((daily.length : Int) - f + 1 - h).toNat).map (fun j =>
      ((daily.drop j).take h.toNat, (daily.drop (h.toNat + j)).take f.toNat))
  else []

/-- `create_daily_forecast_prompts_v4` from `2_generate_prompts.py`.  Returns
(`output_list`, `prompts`).  The measurement column selected by `parameter` is
modelled by the `value` field of `Obs`; `parameter` still appears verbatim in
the rendered text.  `max_prompts_per_city` is accepted but never read, as in
the source. -/
def create_daily_forecast_prompts_v4 (df : List Obs) (location_name parameter : String)
    (history_length_days forecast_days : Int) (prompt_type : String)
    (max_prompts_per_city : Option Nat) : List PromptRec × List RawPrompt :=
  let daily := dailyData df location_name
  if prompt_type = "zero-shot" then
    let endH := maxDay daily
    let startH := endH.map (fun e => e - (history_length_days - 1))
    let fStart := endH.map (fun e => e + 1)
    let fEnd := fStart.map (fun s => s + (forecast_days - 1))
    let table := renderHistTable (zsHistData daily history_length_days)
    let instr := zsInstruction location_name parameter (dateStr startH) (dateStr endH)
      (dateStr fStart) (dateStr fEnd) table
    ([⟨instr, predHeader⟩], [RawPrompt.zs instr])
  else if prompt_type = "fine-tuning" then
    let recs := (ftWindows daily history_length_days forecast_days).map (fun w =>
      let instr := ftInstruction location_name parameter (renderHistTable w.1)
      let resp := renderFutTable w.2
      ((⟨instr, resp⟩ : PromptRec), RawPrompt.ft instr resp))
    (recs.map Prod.fst, recs.map Prod.snd)
  else ([], [])

/-- `load_data_from_s3` from `2_generate_prompts.py`: fetch and parse a CSV
object; every failure (absent object, transport error, parse error) is caught
and surfaces as `None`.  The storage argument models `get_object` + parsing,
with `none` for any raised exception. -/
def load_data_from_s3 (storage : String → String → Option (List Obs))
    (s3BucketName s3FileKey : String) : Option (List Obs) :=
  storage s3BucketName s3FileKey

/-- The per-city CSV artifact key of both drivers:
`{OUTPUT_FILE_KEY_PREFIX}/{city}_data.csv`. -/
def cityFileKey (outKeyStart city : String) : String :=
  outKeyStart ++ "/" ++ city ++ "_data.csv"

/-- The per-city step of the Stage 2 driver loop: skip the city when the CSV
load yields `None`, otherwise extend the two global accumulator sequences
with the city's zero-shot and fine-tuning `output_list`s (driver constants:
parameter `"value"`, history 10, forecast 2, max 3). -/
def stage2Step (storage : String → String → Option (List Obs))
    (bucket outKeyStart : String) (acc : List PromptRec × List PromptRec)
    (city : String) : List PromptRec × List PromptRec :=
  match load_data_from_s3 storage bucket (cityFileKey outKeyStart city) with
  | none => acc
  | some dfHourly =>
    (acc.1 ++ (create_daily_forecast_prompts_v4 dfHourly city "value" 10 2 "zero-shot" (some 3)).1,
      acc.2 ++ (create_daily_forecast_prompts_v4 dfHourly city "value" 10 2 "fine-tuning" (some 3)).1)

/-- `main` of `2_generate_prompts.py` (the per-city loop): fold the per-city
step over the configured cities, accumulating `all_zero_shot_prompts` and
`all_ft_prompts`. -/
def stage2Main (storage : String → String → Option (List Obs))
    (bucket outKeyStart : String) (cities : List String) :
    List PromptRec × List PromptRec :=
  cities.foldl (stage2Step storage bucket outKeyStart) ([], [])

/-- Fixture for the downloader analysis: an archive holding a single object
for location 1, January 2023, whose filename is for day 02. -/
def archC1 : List ArchObj :=
  [⟨"records/csv.gz/locationid=1/year=2023/month=01/location-1-20230102.csv.gz",
    [[Cell.num 5]]⟩]

/-- Fixture: three days of measurements for location "X". -/
def obsC2 : List Obs := [⟨0, "X", some 1⟩, ⟨1, "X", some 2⟩, ⟨2, "X", some 3⟩]

/-- Fixture: a single day of measurements for location "X". -/
def obsC2one : List Obs := [⟨0, "X", some 1⟩]

/-- Fixture: three days of measurements for location "Y". -/
def obsC3 : List Obs := [⟨0, "Y", some 1⟩, ⟨1, "Y", some 2⟩, ⟨2, "Y", some 3⟩]

/-- Fixture: a raw dataframe with unnormalised column names, a duplicate row
and an unparseable date. -/
def dfC5 : DataFrame :=
  ⟨[strCodes "Date", strCodes "PM Value"],
    [[Cell.str "3", Cell.num 1], [Cell.str "3", Cell.num 1], [Cell.str "x", Cell.num 2]]⟩

/-- Fixture: a success response carrying two result objects with the same
identifier. -/
def respC6dup : HttpResp := ⟨200, [⟨1, some "A", none, none⟩, ⟨1, some "B", none, none⟩]⟩

/-- Fixture: a success response carrying one result object. -/
def respC6one : HttpResp := ⟨200, [⟨7, some "A", some "C", some "P"⟩]⟩

/-- Fixture: a metadata mapping with a single known location. -/
def metaC7 : List (Int × MetaRecord) := [(1, ⟨1, "Station A", "C", "Provider P"⟩)]

/-- Fixture: storage on which every read raises. -/
def storC8 : String → String → Option (List Obs) := fun _ _ => none

/-- C9: the `max_prompts_per_city` argument of the prompt generator has no
effect on its output — two calls identical except for that argument (including
`None` versus any value) return identical output lists. -/
theorem c9_max_prompts_per_city_unused (df : List Obs) (locationName param : String)
    (h f : Int) (promptType : String) (m₁ m₂ : Option Nat) :
    create_daily_forecast_prompts_v4 df locationName param h f promptType m₁ =
      create_daily_forecast_prompts_v4 df locationName param h f promptType m₂ := rfl

/-- C10: calling the prompt generator with a `prompt_type` other than
`zero-shot` or `fine-tuning` returns two empty lists (and, the embedding
being total, raises no error). -/
theorem c10_unknown_prompt_type_empty (df : List Obs) (locationName param : String)
    (h f : Int) (promptType : String) (m : Option Nat)
    (h₁ : promptType ≠ "zero-shot") (h₂ : promptType ≠ "fine-tuning") :
    create_daily_forecast_prompts_v4 df locationName param h f promptType m = ([], []) := by
  unfold create_daily_forecast_prompts_v4
  rw [if_neg h₁, if_neg h₂]

/-- Witness for C10 at the concrete prompt type `"few-shot"`. -/
theorem c10_witness :
    ("few-shot" : String) ≠ "zero-shot" ∧ ("few-shot" : String) ≠ "fine-tuning" ∧
      create_daily_forecast_prompts_v4 [] "X" "value" 10 2 "few-shot" none = ([], []) :=
  ⟨by decide, by decide,
    c10_unknown_prompt_type_empty [] "X" "value" 10 2 "few-shot" none (by decide) (by decide)⟩

/-- C4 (code evaluation): the ingestion window length is NOT determined by the
environment-provided `NUMBER_OF_DAYS` value — the hardcoded overwrite makes
the derived start date identical across any two environment values. -/
theorem c4_start_date_ignores_env (endDate : Int) (env₁ env₂ : Option Nat) :
    mainStartDate endDate env₁ = mainStartDate endDate env₂ := rfl

/-- C7: enrichment looks `location_name` and `provider` up by the row's
location identifier; a missing identifier yields empty strings (not an
error), a present identifier yields the mapped metadata values; the whole
dataframe is enriched row by row. -/
theorem c7_enrich_lookup (rows : List IngRow) (metadata : List (Int × MetaRecord))
    (r : IngRow) :
    (dictGet metadata r.location_id = none →
      (enrichRow metadata r).location_name = "" ∧ (enrichRow metadata r).provider = "") ∧
    (∀ rec, dictGet metadata r.location_id = some rec →
      (enrichRow metadata r).location_name = rec.location_name ∧
        (enrichRow metadata r).provider = rec.provider) ∧
    enrich_data_with_metadata rows metadata = rows.map (enrichRow metadata) := by
  refine ⟨fun hnone => ?_, fun rec hsome => ?_, rfl⟩
  · simp [enrichRow, hnone]
  · simp [enrichRow, hsome]

/-- Witness for C7: a row whose identifier is absent from the metadata gets
empty strings, one whose identifier is present gets the mapped values. -/
theorem c7_witness :
    ((enrichRow metaC7 ⟨2, []⟩).location_name = "" ∧ (enrichRow metaC7 ⟨2, []⟩).provider = "") ∧
      ((enrichRow metaC7 ⟨1, []⟩).location_name = "Station A" ∧
        (enrichRow metaC7 ⟨1, []⟩).provider = "Provider P") :=
  ⟨(c7_enrich_lookup [] metaC7 ⟨2, []⟩).1 rfl,
    (c7_enrich_lookup [] metaC7 ⟨1, []⟩).2.1 ⟨1, "Station A", "C", "Provider P"⟩ rfl⟩

/-- C8: a city whose stored CSV read yields `None` contributes no records to
either global prompt sequence, and the Stage 2 run over the remaining cities
is unchanged. -/
theorem c8_unreadable_city_skipped (storage : String → String → Option (List Obs))
    (bucket outKeyStart : String) (pre post : List String) (city : String)
    (hload : load_data_from_s3 storage bucket (cityFileKey outKeyStart city) = none) :
    stage2Main storage bucket outKeyStart (pre ++ city :: post) =
      stage2Main storage bucket outKeyStart (pre ++ post) := by
  unfold stage2Main
  rw [List.foldl_append, List.foldl_append, List.foldl_cons]
  have hstep : ∀ acc, stage2Step storage bucket outKeyStart acc city = acc := by
    intro acc
    unfold stage2Step
    rw [hload]
  rw [hstep]

/-- Witness for C8: with storage on which every read raises, the run over one
city equals the run over no cities. -/
theorem c8_witness :
    stage2Main storC8 "bucket" "out" ["Delhi"] = stage2Main storC8 "bucket" "out" [] :=
  c8_unreadable_city_skipped storC8 "bucket" "out" [] [] "Delhi" rfl

/-- The inner day-loop of the downloader only ever appends: its result is the
starting accumulator extended with the rows of matching pairs and one failure
entry per empty-listing day. -/
theorem downloadDaysFold (archive : List ArchObj) (locId : Int) (days : List CalDay)
    (acc : List (List Cell) × List Int) :
    days.foldl (downloadStep archive locId) acc =
      (acc.1 ++ days.flatMap (pairRows archive locId),
        acc.2 ++ (days.filter (pairFails archive locId)).map (fun _ => locId)) := by
  induction days generalizing acc with
  | nil => simp
  | cons day rest ih =>
    rw [List.foldl_cons, ih]
    unfold downloadStep pairRows pairFails
    cases heq : listObjectsV2 archive (monthKeyStart locId day) with
    | nil => simp [heq]
    | cons o os => simp [heq]

/-- C1 (amended): a (location, day) pair whose month-level listing is empty
contributes zero rows and exactly one failure entry; a pair whose listing is
non-empty contributes exactly the rows of the objects matching the exact
day's filename (zero rows when none matches) and no failure entry; all pairs
of the Cartesian product are processed. -/
theorem c1_download_failure_tracking (archive : List ArchObj) (locationIds : List Int)
    (days : List CalDay) :
    (download_data_to_dataframe archive locationIds days).1 =
        locationIds.flatMap (fun locId => days.flatMap (pairRows archive locId)) ∧
      (download_data_to_dataframe archive locationIds days).2 =
        locationIds.flatMap (fun locId =>
          (days.filter (pairFails archive locId)).map (fun _ => locId)) := by
  unfold download_data_to_dataframe
  suffices hgen : ∀ (ids : List Int) (acc : List (List Cell) × List Int),
      ids.foldl (fun acc locId => days.foldl (downloadStep archive locId) acc) acc =
        (acc.1 ++ ids.flatMap (fun locId => days.flatMap (pairRows archive locId)),
          acc.2 ++ ids.flatMap (fun locId =>
            (days.filter (pairFails archive locId)).map (fun _ => locId))) by
    rw [hgen locationIds ([], [])]
    exact ⟨rfl, rfl⟩
  intro ids
  induction ids with
  | nil => simp
  | cons locId rest ih =>
    intro acc
    rw [List.foldl_cons, ih, downloadDaysFold]
    simp

/-- Counterexample for C1 as stated: for the pair (location 1, 2023-01-01)
the month-level listing is non-empty but contains no object matching the
exact day's filename pattern; the pair contributes zero rows, yet the
location is never appended to the failure tracking list (the claim demands
exactly one entry). -/
theorem c1_counterexample :
    (listObjectsV2 archC1 (monthKeyStart 1 ⟨2023, 1, 1⟩)).isEmpty = false ∧
      (listObjectsV2 archC1 (monthKeyStart 1 ⟨2023, 1, 1⟩)).filter
        (fun o => strEnds o.key (dayFileSuffix ⟨2023, 1, 1⟩)) = [] ∧
      download_data_to_dataframe archC1 [1] [⟨2023, 1, 1⟩] = ([], []) := by
  refine ⟨by decide, by decide, by decide⟩


/-- Overwriting the bindings at key `k`, seen through `dictGet`. -/
theorem dictGet_map_overwrite (k k' : Int) (v : MetaRecord) :
    ∀ m : List (Int × MetaRecord),
      dictGet (m.map (fun p => if p.1 = k then (k, v) else p)) k' =
        if k' = k then (if m.any (fun p => p.1 = k) then some v else none)
        else dictGet m k'
  | [] => by by_cases hk : k' = k <;> simp [dictGet, hk]
  | a :: m => by
    have ih := dictGet_map_overwrite k k' v m
    by_cases ha : a.1 = k
    · by_cases hk : k' = k
      · subst hk
        simp [dictGet, ha, List.any_cons]
      · have hak : ¬a.1 = k' := fun h => hk (by rw [← h, ha])
        have hk2 : ¬k = k' := fun h => hk h.symm
        simp [dictGet, ha, hak, hk, hk2, ih]
    · by_cases hk : k' = k
      · subst hk
        simp [dictGet, ha, ih, List.any_cons]
        rw [decide_eq_false ha, Bool.false_or]
      · by_cases hak : a.1 = k'
        · simp [dictGet, ha, hak, hk]
        · simp [dictGet, ha, hak, hk, ih]

/-- `dictGet` over an appended fresh binding. -/
theorem dictGet_append_single (m : List (Int × MetaRecord)) (k : Int) (v : MetaRecord)
    (k' : Int) :
    dictGet (m ++ [(k, v)]) k' = (dictGet m k').or (if k = k' then some v else none) := by
  induction m with
  | nil => simp [dictGet]
  | cons a m ih =>
    by_cases hak : a.1 = k'
    · simp [dictGet, hak]
    · simp [dictGet, hak, ih]

/-- A key carried by no binding reads as `none`. -/
theorem dictGet_eq_none_of_not_any (m : List (Int × MetaRecord)) (k : Int)
    (hany : m.any (fun p => p.1 = k) = false) :
    dictGet m k = none := by
  induction m with
  | nil => rfl
  | cons a m ih =>
    simp only [List.any_cons, Bool.or_eq_false_iff, decide_eq_false_iff_not] at hany
    simp only [dictGet, if_neg hany.1]
    exact ih (by simpa using hany.2)

/-- Python-dict insertion, seen through `dictGet`: the inserted key now maps
to the new value, every other key is untouched. -/
theorem dictGet_dictInsert (m : List (Int × MetaRecord)) (k : Int) (v : MetaRecord)
    (k' : Int) :
    dictGet (dictInsert m k v) k' = if k' = k then some v else dictGet m k' := by
  unfold dictInsert
  by_cases hany : m.any (fun p => p.1 = k) = true
  · rw [if_pos hany, dictGet_map_overwrite, if_pos hany]
  · have hfalse : m.any (fun p => p.1 = k) = false := by
      cases h : m.any (fun p => p.1 = k)
      · rfl
      · exact absurd h hany
    rw [if_neg hany, dictGet_append_single]
    have hnone : dictGet m k = none := dictGet_eq_none_of_not_any m k hfalse
    by_cases hk : k' = k
    · subst hk
      rw [hnone]
      simp
    · have hk2 : ¬k = k' := fun h => hk h.symm
      rw [if_neg hk2, if_neg hk]
      cases dictGet m k' <;> rfl

/-- Presence of a key among the bindings, as `any` versus `map`. -/
theorem any_key_iff (m : List (Int × MetaRecord)) (k : Int) :
    m.any (fun p => p.1 = k) = true ↔ k ∈ m.map Prod.fst := by
  simp only [List.any_eq_true, decide_eq_true_eq, List.mem_map]

/-- The key list after a Python-dict insertion: unchanged when the key was
present, extended by the key otherwise. -/
theorem keys_dictInsert (m : List (Int × MetaRecord)) (k : Int) (v : MetaRecord) :
    (dictInsert m k v).map Prod.fst =
      if m.any (fun p => p.1 = k) then m.map Prod.fst else m.map Prod.fst ++ [k] := by
  unfold dictInsert
  by_cases hany : m.any (fun p => p.1 = k) = true
  · rw [if_pos hany, if_pos hany, List.map_map]
    refine List.map_congr_left fun p _ => ?_
    by_cases hp : p.1 = k
    · simp [hp]
    · simp [hp]
  · rw [if_neg hany, if_neg hany]
    simp

/-- The dictionary built by the metadata loop, looked up at any key: the
record extracted from the last result object carrying that identifier (the
lookup falls through to the starting dictionary when no object carries it). -/
theorem buildMetadataFold (results : List LocObj) (m : List (Int × MetaRecord)) (k : Int) :
    dictGet (results.foldl (fun acc l => dictInsert acc l.id (extract_metadata_fields l)) m) k =
      ((results.reverse.find? (fun l => l.id == k)).map extract_metadata_fields).or
        (dictGet m k) := by
  induction results generalizing m with
  | nil => simp
  | cons l rest ih =>
    rw [List.foldl_cons, ih, List.reverse_cons, List.find?_append]
    cases hfind : rest.reverse.find? (fun l => l.id == k) with
    | some x => simp [hfind]
    | none =>
      rw [dictGet_dictInsert]
      by_cases hl : l.id = k
      · simp [List.find?, hl]
      · have hk : ¬k = l.id := fun h => hl h.symm
        have hbeq : (l.id == k) = false := by simp [hl]
        simp [List.find?, hbeq, hk]

/-- Keys of the dictionary built by the metadata loop: no duplicates, and a
key is present exactly when some result object carries it (or it was already
in the starting dictionary). -/
theorem buildMetadataFoldKeys (results : List LocObj) (m : List (Int × MetaRecord)) :
    ((m.map Prod.fst).Nodup →
      ((results.foldl (fun acc l => dictInsert acc l.id (extract_metadata_fields l)) m).map
          Prod.fst).Nodup) ∧
    (∀ k, k ∈ (results.foldl (fun acc l => dictInsert acc l.id (extract_metadata_fields l))
          m).map Prod.fst ↔
        k ∈ m.map Prod.fst ∨ k ∈ results.map LocObj.id) := by
  induction results generalizing m with
  | nil => simp
  | cons l rest ih =>
    rw [List.foldl_cons]
    have hkeys := keys_dictInsert m l.id (extract_metadata_fields l)
    constructor
    · intro hnodup
      refine (ih (dictInsert m l.id (extract_metadata_fields l))).1 ?_
      rw [hkeys]
      by_cases hany : m.any (fun p => p.1 = l.id) = true
      · rw [if_pos hany]
        exact hnodup
      · rw [if_neg hany]
        have hnotmem : l.id ∉ m.map Prod.fst := fun hmem => hany ((any_key_iff m l.id).mpr hmem)
        simp [List.nodup_append, hnodup, hnotmem]
    · intro k
      rw [(ih (dictInsert m l.id (extract_metadata_fields l))).2 k, hkeys]
      by_cases hany : m.any (fun p => p.1 = l.id) = true
      · rw [if_pos hany]
        have hmem : l.id ∈ m.map Prod.fst := (any_key_iff m l.id).mp hany
        simp only [List.map_cons, List.mem_cons]
        constructor
        · rintro (h | h)
          · exact Or.inl h
          · exact Or.inr (Or.inr h)
        · rintro (h | h | h)
          · exact Or.inl h
          · exact Or.inl (h ▸ hmem)
          · exact Or.inr h
      · rw [if_neg hany]
        simp only [List.mem_append, List.mem_singleton, List.map_cons, List.mem_cons]
        tauto

/-- C6 (amended): the metadata fetch raises exactly for 4xx/5xx statuses; on
success it returns a mapping with one record per DISTINCT result identifier —
each key mapping to the record extracted from the LAST result object carrying
it (so duplicate identifiers collapse) — and zero results give an empty
mapping, not an error. -/
theorem c6_metadata_fetch (resp : HttpResp) :
    (get_location_metadata resp = Except.error resp.status ↔ isHttpError resp.status) ∧
    (¬isHttpError resp.status →
      get_location_metadata resp = Except.ok (buildMetadata resp.results) ∧
      (∀ k : Int, dictGet (buildMetadata resp.results) k =
        (resp.results.reverse.find? (fun l => l.id == k)).map extract_metadata_fields) ∧
      ((buildMetadata resp.results).map Prod.fst).Nodup ∧
      (∀ k : Int, k ∈ (buildMetadata resp.results).map Prod.fst ↔
        k ∈ resp.results.map LocObj.id) ∧
      (resp.results = [] → buildMetadata resp.results = [])) := by
  constructor
  · unfold get_location_metadata
    by_cases h : isHttpError resp.status
    · simp [h]
    · simp [h]
  · intro h
    refine ⟨by unfold get_location_metadata; rw [if_neg h], fun k => ?_, ?_, fun k => ?_,
      fun he => by rw [he]; rfl⟩
    · unfold buildMetadata
      rw [buildMetadataFold resp.results [] k]
      cases hfind : resp.results.reverse.find? (fun l => l.id == k) <;> simp [dictGet]
    · exact (buildMetadataFoldKeys resp.results []).1 (by simp)
    · unfold buildMetadata
      rw [(buildMetadataFoldKeys resp.results []).2 k]
      simp

/-- Counterexample for C6 as stated: a success response with two result
objects sharing identifier 1 yields a one-entry mapping, not one record per
result object; the later object's metadata wins. -/
theorem c6_counterexample :
    respC6dup.results.length = 2 ∧
      get_location_metadata respC6dup = Except.ok [(1, ⟨1, "B", "", ""⟩)] ∧
      (buildMetadata respC6dup.results).length = 1 :=
  ⟨rfl, rfl, rfl⟩

/-- Witness for C6 at concrete responses: a 404 yields the error, a success
response yields the mapping with the extracted record retrievable by its
identifier. -/
theorem c6_witness :
    get_location_metadata ⟨404, []⟩ = Except.error 404 ∧
      dictGet (buildMetadata respC6one.results) 7 =
        some (extract_metadata_fields ⟨7, some "A", some "C", some "P"⟩) := by
  constructor
  · exact (c6_metadata_fetch ⟨404, []⟩).1.mpr (by decide)
  · have h := (((c6_metadata_fetch respC6one).2 (by decide)).2.1) 7
    exact h.trans (by decide)

/-- Membership after inserting a day. -/
theorem mem_insertDay {y d : Int} : ∀ {l : List Int}, y ∈ insertDay d l → y = d ∨ y ∈ l
  | [], hy => by simpa [insertDay] using hy
  | x :: xs, hy => by
    unfold insertDay at hy
    by_cases h1 : d < x
    · rw [if_pos h1] at hy
      simpa using hy
    · rw [if_neg h1] at hy
      by_cases h2 : d = x
      · rw [if_pos h2] at hy
        exact Or.inr hy
      · rw [if_neg h2] at hy
        rcases List.mem_cons.mp hy with h | h
        · exact Or.inr (List.mem_cons.mpr (Or.inl h))
        · rcases mem_insertDay h with h | h
          · exact Or.inl h
          · exact Or.inr (List.mem_cons.mpr (Or.inr h))

/-- Inserting a day keeps the day list strictly sorted. -/
theorem sorted_insertDay (d : Int) :
    ∀ (l : List Int), List.Sorted (· < ·) l → List.Sorted (· < ·) (insertDay d l)
  | [], _ => by simp [insertDay]
  | x :: xs, hs => by
    rw [List.sorted_cons] at hs
    unfold insertDay
    by_cases h1 : d < x
    · rw [if_pos h1, List.sorted_cons]
      refine ⟨fun b hb => ?_, List.sorted_cons.mpr hs⟩
      rcases List.mem_cons.mp hb with h | h
      · exact h ▸ h1
      · exact h1.trans (hs.1 b h)
    · rw [if_neg h1]
      by_cases h2 : d = x
      · rw [if_pos h2, List.sorted_cons]
        exact hs
      · rw [if_neg h2, List.sorted_cons]
        have hxd : x < d := by omega
        refine ⟨fun b hb => ?_, sorted_insertDay d xs hs.2⟩
        rcases mem_insertDay hb with h | h
        · exact h ▸ hxd
        · exact hs.1 b h

/-- Folding `insertDay` over any day list produces a strictly sorted list. -/
theorem sorted_foldr_insertDay (ds : List Int) :
    List.Sorted (· < ·) (ds.foldr insertDay []) := by
  induction ds with
  | nil => simp
  | cons d ds ih => exact sorted_insertDay d _ ih

/-- The distinct-day index of the resample is strictly sorted. -/
theorem sorted_sortedDays (rows : List Obs) (loc : String) :
    List.Sorted (· < ·) (sortedDays rows loc) :=
  sorted_foldr_insertDay _

/-- The day column of a keyed `filterMap` is the filter of the day list. -/
theorem map_fst_filterMap_keyed (g : Int → Option ℚ) :
    ∀ l : List Int,
      ((l.filterMap (fun d => (g d).map (fun q => (d, q)))).map Prod.fst) =
        l.filter (fun d => (g d).isSome)
  | [] => rfl
  | d :: l => by
    cases hg : g d <;>
      simp [List.filterMap_cons, hg, map_fst_filterMap_keyed g l]

/-- The day column of `daily_data` is strictly sorted. -/
theorem sorted_dailyData_days (rows : List Obs) (loc : String) :
    List.Sorted (· < ·) ((dailyData rows loc).map Prod.fst) := by
  unfold dailyData
  rw [map_fst_filterMap_keyed]
  exact List.Pairwise.filter _ (sorted_sortedDays rows loc)

/-- The head of a non-trivial `take` is the head of the list. -/
theorem head?_take_of_pos {α : Type} (l : List α) (m : Nat) (hm : 1 ≤ m) :
    (l.take m).head? = l.head? := by
  cases l with
  | nil => simp
  | cons a l =>
    cases m with
    | zero => omega
    | succ m => simp [List.take]

/-- With a positive history length, the fine-tuning window starts are the
days of `daily_data` in position order, hence strictly increasing: the
records are emitted in chronological order of window start. -/
theorem ftWindows_starts_sorted (dd : List (Int × ℚ)) (h f : Int) (hh : 1 ≤ h)
    (hsort : List.Sorted (· < ·) (dd.map Prod.fst)) :
    List.Sorted (· < ·)
      (((ftWindows dd h f).filterMap (fun w => w.1.head?)).map Prod.fst) := by
  unfold ftWindows
  by_cases hguard : h + f ≤ (dd.length : Int)
  · rw [if_pos hguard, List.filterMap_map, List.map_filterMap]
    refine List.pairwise_filterMap.mpr ?_
    refine (List.pairwise_lt_range _).imp ?_
    intro j₁ j₂ hj x hx y hy
    simp only [Function.comp] at hx hy
    have hm : 1 ≤ h.toNat := by omega
    rw [head?_take_of_pos _ _ hm, List.head?_drop] at hx
    rw [head?_take_of_pos _ _ hm, List.head?_drop] at hy
    rcases Option.map_eq_some'.mp hx with ⟨p, hp, hpx⟩
    rcases Option.map_eq_some'.mp hy with ⟨q, hq, hqy⟩
    have hj₁ : j₁ < dd.length := (List.getElem?_eq_some_iff.mp hp).1
    have hj₂ : j₂ < dd.length := (List.getElem?_eq_some_iff.mp hq).1
    have hpe : dd[j₁] = p := (List.getElem?_eq_some_iff.mp hp).2
    have hqe : dd[j₂] = q := (List.getElem?_eq_some_iff.mp hq).2
    have := (List.pairwise_iff_getElem.mp hsort) j₁ j₂
      (by simpa using hj₁) (by simpa using hj₂) hj
    simp only [List.getElem_map] at this
    rw [hpe, hqe] at this
    rw [← hpx, ← hqy]
    exact this
  · rw [if_neg hguard]
    simp

/-- C2: fine-tuning prompt generation emits zero Prompt Records (no error)
when the resampled day count `n` is below `h + f`, and exactly
`n - f + 1 - h` records otherwise — one per sliding window, in chronological
order of window start; the records are exactly the rendered windows. -/
theorem c2_fine_tuning_window_count (df : List Obs) (loc par : String) (h f : Int)
    (m : Option Nat) :
    (((dailyData df loc).length : Int) < h + f →
      (create_daily_forecast_prompts_v4 df loc par h f "fine-tuning" m).1.length = 0) ∧
    (h + f ≤ ((dailyData df loc).length : Int) →
      ((create_daily_forecast_prompts_v4 df loc par h f "fine-tuning" m).1.length : Int) =
        ((dailyData df loc).length : Int) - f + 1 - h) ∧
    (1 ≤ h →
      List.Sorted (· < ·)
        (((ftWindows (dailyData df loc) h f).filterMap (fun w => w.1.head?)).map Prod.fst)) ∧
    (create_daily_forecast_prompts_v4 df loc par h f "fine-tuning" m).1 =
      (ftWindows (dailyData df loc) h f).map (fun w =>
        ⟨ftInstruction loc par (renderHistTable w.1), renderFutTable w.2⟩) := by
  have hbranch : (create_daily_forecast_prompts_v4 df loc par h f "fine-tuning" m).1 =
      (ftWindows (dailyData df loc) h f).map (fun w =>
        ⟨ftInstruction loc par (renderHistTable w.1), renderFutTable w.2⟩) := by
    show ((ftWindows (dailyData df loc) h f).map _).map Prod.fst = _
    rw [List.map_map]
    rfl
  have hlen : (create_daily_forecast_prompts_v4 df loc par h f "fine-tuning" m).1.length =
      (ftWindows (dailyData df loc) h f).length := by
    rw [hbranch, List.length_map]
  refine ⟨fun hlt => ?_, fun hge => ?_, fun hh =>
    ftWindows_starts_sorted _ h f hh (sorted_dailyData_days df loc), hbranch⟩
  · rw [hlen]
    unfold ftWindows
    rw [if_neg (by omega)]
    rfl
  · rw [hlen]
    unfold ftWindows
    rw [if_pos hge]
    rw [List.length_map, List.length_range]
    omega

/-- Witness for C2: three resampled days with `h = 1`, `f = 1` give two
records (the window-count formula), one resampled day with `h = 1`, `f = 1`
gives zero records, and the window starts are strictly increasing. -/
theorem c2_witness :
    (((create_daily_forecast_prompts_v4 obsC2 "X" "value" 1 1 "fine-tuning" none).1.length : Int)
        = ((dailyData obsC2 "X").length : Int) - 1 + 1 - 1) ∧
      (create_daily_forecast_prompts_v4 obsC2one "X" "value" 2 1 "fine-tuning" none).1.length
        = 0 ∧
      List.Sorted (· < ·)
        (((ftWindows (dailyData obsC2 "X") 1 1).filterMap (fun w => w.1.head?)).map
          Prod.fst) :=
  ⟨(c2_fine_tuning_window_count obsC2 "X" "value" 1 1 none).2.1 (by decide),
    (c2_fine_tuning_window_count obsC2one "X" "value" 2 1 none).1 (by decide),
    (c2_fine_tuning_window_count obsC2 "X" "value" 1 1 none).2.2.1 (by decide)⟩

/-- C3: a zero-shot call emits exactly one Prompt Record for every input; its
Completion is always the fixed empty-body table header; its Prompt embeds the
rendered historical table, whose rows are exactly the resampled days in
`[end - (h - 1), end]` where `end` is the latest resampled day. -/
theorem c3_zero_shot_record (df : List Obs) (loc par : String) (h f : Int)
    (m : Option Nat) :
    (create_daily_forecast_prompts_v4 df loc par h f "zero-shot" m).1.length = 1 ∧
    (∀ r ∈ (create_daily_forecast_prompts_v4 df loc par h f "zero-shot" m).1,
      r.Completion = predHeader ∧
      r.Prompt = zsInstruction loc par
        (dateStr ((maxDay (dailyData df loc)).map (fun e => e - (h - 1))))
        (dateStr (maxDay (dailyData df loc)))
        (dateStr ((maxDay (dailyData df loc)).map (fun e => e + 1)))
        (dateStr (((maxDay (dailyData df loc)).map (fun e => e + 1)).map
          (fun s => s + (f - 1))))
        (renderHistTable (zsHistData (dailyData df loc) h))) ∧
    (∀ e, maxDay (dailyData df loc) = some e →
      (zsHistData (dailyData df loc) h).length =
        (dailyData df loc).countP (fun p => decide (e - (h - 1) ≤ p.1 ∧ p.1 ≤ e)) ∧
      ∀ p, p ∈ zsHistData (dailyData df loc) h ↔
        p ∈ dailyData df loc ∧ e - (h - 1) ≤ p.1 ∧ p.1 ≤ e) := by
  have hc : create_daily_forecast_prompts_v4 df loc par h f "zero-shot" m =
      ([⟨zsInstruction loc par
          (dateStr ((maxDay (dailyData df loc)).map (fun e => e - (h - 1))))
          (dateStr (maxDay (dailyData df loc)))
          (dateStr ((maxDay (dailyData df loc)).map (fun e => e + 1)))
          (dateStr (((maxDay (dailyData df loc)).map (fun e => e + 1)).map
            (fun s => s + (f - 1))))
          (renderHistTable (zsHistData (dailyData df loc) h)), predHeader⟩],
        [RawPrompt.zs (zsInstruction loc par
          (dateStr ((maxDay (dailyData df loc)).map (fun e => e - (h - 1))))
          (dateStr (maxDay (dailyData df loc)))
          (dateStr ((maxDay (dailyData df loc)).map (fun e => e + 1)))
          (dateStr (((maxDay (dailyData df loc)).map (fun e => e + 1)).map
            (fun s => s + (f - 1))))
          (renderHistTable (zsHistData (dailyData df loc) h)))]) := rfl
  refine ⟨by rw [hc]; rfl, fun r hr => ?_, fun e he => ?_⟩
  · rw [hc] at hr
    rcases List.mem_singleton.mp hr with rfl
    exact ⟨rfl, rfl⟩
  · constructor
    · unfold zsHistData
      rw [he, List.countP_eq_length_filter]
    · intro p
      unfold zsHistData
      rw [he]
      simp [List.mem_filter]

/-- Witness for C3: on three concrete resampled days with `h = 2` the single
record's historical window covers the last two days. -/
theorem c3_witness :
    maxDay (dailyData obsC3 "Y") = some 2 ∧
      (create_daily_forecast_prompts_v4 obsC3 "Y" "value" 2 1 "zero-shot" none).1.length = 1 ∧
      (zsHistData (dailyData obsC3 "Y") 2).length =
        (dailyData obsC3 "Y").countP (fun p => decide (2 - (2 - 1) ≤ p.1 ∧ p.1 ≤ 2)) ∧
      ((3 : Int), (0 : ℚ)) ∉ zsHistData (dailyData obsC3 "Y") 2 :=
  ⟨by decide,
    (c3_zero_shot_record obsC3 "Y" "value" 2 1 none).1,
    ((c3_zero_shot_record obsC3 "Y" "value" 2 1 none).2.2 2 (by decide)).1,
    fun hmem => by
      have hiff := (((c3_zero_shot_record obsC3 "Y" "value" 2 1 none).2.2 2 (by decide)).2
        ((3 : Int), (0 : ℚ))).mp hmem
      exact absurd hiff.2.2 (by decide)⟩

/-- Column-name normalisation is idempotent on one codepoint. -/
theorem normCode_idem (n : Nat) : normCode (normCode n) = normCode n := by
  unfold normCode lowerCode
  split_ifs <;> omega

/-- Column-name normalisation is idempotent. -/
theorem normName_idem (s : List Nat) : normName (normName s) = normName s := by
  unfold normName
  rw [List.map_map]
  exact List.map_congr_left fun n _ => normCode_idem n

/-- The worker of `drop_duplicates` yields no duplicates, and only rows of
the input that were not already seen. -/
theorem dropDupFirstAux_props :
    ∀ (l seen : List (List Cell)),
      (dropDupFirstAux seen l).Nodup ∧
        ∀ x ∈ dropDupFirstAux seen l, x ∈ l ∧ x ∉ seen
  | [], seen => by simp [dropDupFirstAux]
  | r :: rs, seen => by
    unfold dropDupFirstAux
    by_cases hmem : r ∈ seen
    · rw [if_pos hmem]
      refine ⟨(dropDupFirstAux_props rs seen).1, fun x hx => ?_⟩
      have hp := (dropDupFirstAux_props rs seen).2 x hx
      exact ⟨List.mem_cons.mpr (Or.inr hp.1), hp.2⟩
    · rw [if_neg hmem]
      have ihp := dropDupFirstAux_props rs (r :: seen)
      constructor
      · refine List.nodup_cons.mpr ⟨fun hr => ?_, ihp.1⟩
        exact (ihp.2 r hr).2 (List.mem_cons_self r seen)
      · intro x hx
        rcases List.mem_cons.mp hx with rfl | hx
        · exact ⟨List.mem_cons_self x rs, hmem⟩
        · have hp := ihp.2 x hx
          exact ⟨List.mem_cons.mpr (Or.inr hp.1),
            fun hs => hp.2 (List.mem_cons.mpr (Or.inr hs))⟩

/-- The worker of `drop_duplicates` is the identity on duplicate-free input
disjoint from the seen set. -/
theorem dropDupFirstAux_eq_self :
    ∀ (l seen : List (List Cell)), l.Nodup → (∀ x ∈ l, x ∉ seen) →
      dropDupFirstAux seen l = l
  | [], _, _, _ => rfl
  | r :: rs, seen, hnd, hdisj => by
    unfold dropDupFirstAux
    rw [if_neg (hdisj r (List.mem_cons_self r rs))]
    congr 1
    refine dropDupFirstAux_eq_self rs (r :: seen) (List.nodup_cons.mp hnd).2 fun x hx hs => ?_
    rcases List.mem_cons.mp hs with rfl | hs
    · exact (List.nodup_cons.mp hnd).1 hx
    · exact hdisj x (List.mem_cons.mpr (Or.inr hx)) hs

/-- `drop_duplicates` removes all duplicates. -/
theorem dropDupFirst_nodup (l : List (List Cell)) : (dropDupFirst l).Nodup :=
  (dropDupFirstAux_props l []).1

/-- `drop_duplicates` is the identity on duplicate-free input. -/
theorem dropDupFirst_eq_self (l : List (List Cell)) (h : l.Nodup) : dropDupFirst l = l :=
  dropDupFirstAux_eq_self l [] h (by simp)

/-- Rows kept by `drop_duplicates` come from the input. -/
theorem mem_dropDupFirst {x : List Cell} {l : List (List Cell)}
    (hx : x ∈ dropDupFirst l) : x ∈ l :=
  ((dropDupFirstAux_props l []).2 x hx).1

/-- A transform already satisfying all the cleaning invariants is untouched
by `transform_data_for_rag`. -/
theorem transform_of_clean (d : DataFrame)
    (h1 : ∀ x ∈ d.cols, normName x = x)
    (h2 : locationCol ∈ d.cols)
    (h3 : setTimestamp d = d)
    (h4 : d.rows.Nodup)
    (h5 : ∀ r ∈ d.rows, r.contains Cell.null = false) :
    transform_data_for_rag d = d := by
  unfold transform_data_for_rag
  have hcols : d.cols.map normName = d.cols :=
    (List.map_congr_left h1).trans (List.map_id _)
  rw [hcols]
  rw [show (⟨d.cols, d.rows⟩ : DataFrame) = d from rfl]
  have hadd : addLocationCol d = d := by
    unfold addLocationCol
    rw [if_pos h2]
  rw [hadd]
  show DataFrame.mk (setTimestamp d).cols
      ((dropDupFirst (setTimestamp d).rows).filter (fun r => !r.contains Cell.null)) = d
  rw [h3, dropDupFirst_eq_self d.rows h4,
    List.filter_eq_self.mpr fun r hr => by rw [h5 r hr]; rfl]

/-- Adding the default `location` column either keeps or appends one column. -/
theorem addLocationCol_cols (d : DataFrame) :
    (addLocationCol d).cols = d.cols ∨ (addLocationCol d).cols = d.cols ++ [locationCol] := by
  unfold addLocationCol
  by_cases h : locationCol ∈ d.cols
  · rw [if_pos h]
    exact Or.inl rfl
  · rw [if_neg h]
    exact Or.inr rfl

/-- After the `location` step the `location` column is present. -/
theorem addLocationCol_mem_location (d : DataFrame) :
    locationCol ∈ (addLocationCol d).cols := by
  unfold addLocationCol
  by_cases h : locationCol ∈ d.cols
  · rw [if_pos h]
    exact h
  · rw [if_neg h]
    simp

/-- The `timestamp` step either keeps or appends one column. -/
theorem setTimestamp_cols (d : DataFrame) :
    (setTimestamp d).cols = d.cols ∨ (setTimestamp d).cols = d.cols ++ [timestampCol] := by
  unfold setTimestamp
  split_ifs <;> simp

/-- The `location` step keeps dataframes well-formed. -/
theorem addLocationCol_wf (d : DataFrame) (h : dfWf d) : dfWf (addLocationCol d) := by
  unfold addLocationCol
  by_cases hmem : locationCol ∈ d.cols
  · rw [if_pos hmem]
    exact h
  · rw [if_neg hmem]
    intro r hr
    rcases List.mem_map.mp hr with ⟨r₂, hr₂, rfl⟩
    simp [h r₂ hr₂]

/-- Overwriting the `timestamp` cells twice with the same value is the same
as overwriting once. -/
theorem zipWith_overwrite_twice (t : Cell) :
    ∀ (C : List (List Nat)) (r : List Cell),
      List.zipWith (fun cn c => if cn = timestampCol then t else c) C
        (List.zipWith (fun cn c => if cn = timestampCol then t else c) C r) =
      List.zipWith (fun cn c => if cn = timestampCol then t else c) C r
  | [], r => rfl
  | cn :: C, [] => rfl
  | cn :: C, c :: r => by
    simp only [List.zipWith_cons_cons]
    rw [zipWith_overwrite_twice t C r]
    by_cases hcn : cn = timestampCol
    · simp [hcn]
    · simp [hcn]

/-- Overwriting the `timestamp` cells of a row whose columns do not carry the
`timestamp` label is the identity. -/
theorem zipWith_overwrite_id (t : Cell) :
    ∀ (C : List (List Nat)) (r : List Cell), timestampCol ∉ C → C.length = r.length →
      List.zipWith (fun cn c => if cn = timestampCol then t else c) C r = r
  | [], [], _, _ => rfl
  | [], _ :: _, _, hlen => by simp at hlen
  | _ :: _, [], _, hlen => by simp at hlen
  | cn :: C, c :: r, hmem, hlen => by
    simp only [List.zipWith_cons_cons]
    have hcn : ¬cn = timestampCol := fun h => hmem (h ▸ List.mem_cons_self cn C)
    rw [if_neg hcn, zipWith_overwrite_id t C r (fun h => hmem (List.mem_cons.mpr (Or.inr h)))
      (by simpa using hlen)]

/-- Reading a cell of an overwritten row at a non-`timestamp` column position
sees the original cell. -/
theorem getCell_zipWith_ne (C : List (List Nat)) (r : List Cell) (t : Cell) (i : Nat)
    (hiC : i < C.length) (hir : i < r.length) (hne : C[i] ≠ timestampCol) :
    getCell (List.zipWith (fun cn c => if cn = timestampCol then t else c) C r) i =
      getCell r i := by
  unfold getCell
  have hiz : i < (List.zipWith (fun cn c => if cn = timestampCol then t else c) C r).length := by
    rw [List.length_zipWith]
    omega
  rw [List.getD_eq_getElem _ _ hiz, List.getD_eq_getElem _ _ hir, List.getElem_zipWith,
    if_neg hne]

/-- Reading a cell before an appended cell sees the original row. -/
theorem getCell_append_lt (r : List Cell) (t : Cell) (i : Nat) (hi : i < r.length) :
    getCell (r ++ [t]) i = getCell r i := by
  unfold getCell
  have hia : i < (r ++ [t]).length := by
    rw [List.length_append]
    omega
  rw [List.getD_eq_getElem _ _ hia, List.getD_eq_getElem _ _ hi,
    List.getElem_append_left hi]

/-- A present label is found within bounds. -/
theorem colIdx_lt_length {name : List Nat} :
    ∀ {cols : List (List Nat)}, name ∈ cols → colIdx cols name < cols.length
  | [], h => by simp at h
  | c :: rest, h => by
    unfold colIdx
    by_cases hc : c = name
    · rw [if_pos hc]
      simp
    · rw [if_neg hc]
      have : name ∈ rest := by
        rcases List.mem_cons.mp h with h | h
        · exact absurd h.symm hc
        · exact h
      simpa using colIdx_lt_length this

/-- The column found by `colIdx` carries the requested label. -/
theorem getElem_colIdx {name : List Nat} :
    ∀ {cols : List (List Nat)} (hmem : name ∈ cols)
      (hlt : colIdx cols name < cols.length), cols[colIdx cols name] = name
  | [], hmem, _ => by simp at hmem
  | c :: rest, hmem, hlt => by
    by_cases hc : c = name
    · simp [colIdx, hc]
    · have hmem' : name ∈ rest := by
        rcases List.mem_cons.mp hmem with h | h
        · exact absurd h.symm hc
        · exact h
      have hlt' : colIdx rest name < rest.length := colIdx_lt_length hmem'
      simp only [colIdx, if_neg hc, List.getElem_cons_succ]
      exact getElem_colIdx hmem' hlt'

/-- Appending columns does not move an existing label's position. -/
theorem colIdx_append_of_mem {name : List Nat} (cols' : List (List Nat)) :
    ∀ {cols : List (List Nat)}, name ∈ cols →
      colIdx (cols ++ cols') name = colIdx cols name
  | [], h => by simp at h
  | c :: rest, h => by
    by_cases hc : c = name
    · simp [colIdx, hc]
    · have hmem' : name ∈ rest := by
        rcases List.mem_cons.mp h with h' | h'
        · exact absurd h'.symm hc
        · exact h'
      simp only [List.cons_append, colIdx, if_neg hc]
      congr 1
      exact colIdx_append_of_mem cols' hmem'

/-- The `timestamp` step is the identity on a frame whose rows are already
fixed points of the overwrite. -/
theorem setTimestamp_fix_of_rows (C : List (List Nat)) (R : List (List Cell))
    (hdate : dateCol ∈ C) (hts : timestampCol ∈ C)
    (hrows : ∀ r ∈ R,
      List.zipWith (fun cn c => if cn = timestampCol then tsValue C r else c) C r = r) :
    setTimestamp ⟨C, R⟩ = ⟨C, R⟩ := by
  unfold setTimestamp
  rw [if_pos hdate, if_pos hts]
  exact congrArg (DataFrame.mk C) ((List.map_congr_left hrows).trans (List.map_id R))

/-- The `timestamp` step is stable on the cleaned output built from any
well-formed frame: recomputing `timestamp` from the same `date` cells writes
back the values already present. -/
theorem setTimestamp_stable_core (d2 : DataFrame) (hwf2 : dfWf d2) :
    setTimestamp ⟨(setTimestamp d2).cols,
        (dropDupFirst (setTimestamp d2).rows).filter (fun r => !r.contains Cell.null)⟩ =
      ⟨(setTimestamp d2).cols,
        (dropDupFirst (setTimestamp d2).rows).filter (fun r => !r.contains Cell.null)⟩ := by
  by_cases hdate : dateCol ∈ d2.cols
  · have hdi : colIdx d2.cols dateCol < d2.cols.length := colIdx_lt_length hdate
    by_cases hts : timestampCol ∈ d2.cols
    · have hst : setTimestamp d2 = ⟨d2.cols, d2.rows.map (fun r =>
          List.zipWith (fun cn c => if cn = timestampCol then tsValue d2.cols r else c)
            d2.cols r)⟩ := by
        unfold setTimestamp
        rw [if_pos hdate, if_pos hts]
      refine setTimestamp_fix_of_rows _ _ (by rw [hst]; exact hdate) (by rw [hst]; exact hts)
        (fun r hr => ?_)
      rw [hst]
      show List.zipWith (fun cn c => if cn = timestampCol then tsValue d2.cols r else c)
        d2.cols r = r
      rw [hst] at hr
      have hmem : r ∈ (d2.rows.map (fun r =>
          List.zipWith (fun cn c => if cn = timestampCol then tsValue d2.cols r else c)
            d2.cols r)) := mem_dropDupFirst (List.mem_filter.mp hr).1
      rcases List.mem_map.mp hmem with ⟨r₂, hr₂, rfl⟩
      have hlen₂ : r₂.length = d2.cols.length := hwf2 r₂ hr₂
      have htv : tsValue d2.cols
          (List.zipWith (fun cn c => if cn = timestampCol then tsValue d2.cols r₂ else c)
            d2.cols r₂) = tsValue d2.cols r₂ := by
        unfold tsValue
        rw [getCell_zipWith_ne d2.cols r₂ _ _ hdi (by omega)
          (by rw [getElem_colIdx hdate hdi]; decide)]
      rw [htv, zipWith_overwrite_twice]
    · have hst : setTimestamp d2 = ⟨d2.cols ++ [timestampCol],
          d2.rows.map (fun r => r ++ [tsValue d2.cols r])⟩ := by
        unfold setTimestamp
        rw [if_pos hdate, if_neg hts]
      refine setTimestamp_fix_of_rows _ _
        (by rw [hst]; exact List.mem_append.mpr (Or.inl hdate))
        (by rw [hst]; simp) (fun r hr => ?_)
      rw [hst]
      show List.zipWith
          (fun cn c => if cn = timestampCol then tsValue (d2.cols ++ [timestampCol]) r else c)
          (d2.cols ++ [timestampCol]) r = r
      rw [hst] at hr
      have hmem : r ∈ (d2.rows.map (fun r => r ++ [tsValue d2.cols r])) :=
        mem_dropDupFirst (List.mem_filter.mp hr).1
      rcases List.mem_map.mp hmem with ⟨r₂, hr₂, rfl⟩
      have hlen₂ : r₂.length = d2.cols.length := hwf2 r₂ hr₂
      have hCdi : colIdx (d2.cols ++ [timestampCol]) dateCol = colIdx d2.cols dateCol :=
        colIdx_append_of_mem [timestampCol] hdate
      have htv : tsValue (d2.cols ++ [timestampCol]) (r₂ ++ [tsValue d2.cols r₂]) =
          tsValue d2.cols r₂ := by
        unfold tsValue
        rw [hCdi, getCell_append_lt r₂ _ _ (by omega)]
      rw [htv, List.zipWith_append _ _ _ _ _ (by omega)]
      rw [zipWith_overwrite_id _ d2.cols r₂ hts (by omega)]
      simp
  · have hst : setTimestamp d2 = d2 := by
      unfold setTimestamp
      rw [if_neg hdate]
    rw [hst]
    unfold setTimestamp
    rw [if_neg hdate]

/-- Normalised names survive the `location` step. -/
theorem cols_fixed_addLoc (d1 : DataFrame) (hd1 : ∀ x ∈ d1.cols, normName x = x) :
    ∀ x ∈ (addLocationCol d1).cols, normName x = x := by
  intro x hx
  rcases addLocationCol_cols d1 with h | h <;> rw [h] at hx
  · exact hd1 x hx
  · rcases List.mem_append.mp hx with hx | hx
    · exact hd1 x hx
    · rw [List.mem_singleton.mp hx]
      decide

/-- Normalised names survive the `timestamp` step. -/
theorem cols_fixed_setTs (d : DataFrame) (hd : ∀ x ∈ d.cols, normName x = x) :
    ∀ x ∈ (setTimestamp d).cols, normName x = x := by
  intro x hx
  rcases setTimestamp_cols d with h | h <;> rw [h] at hx
  · exact hd x hx
  · rcases List.mem_append.mp hx with hx | hx
    · exact hd x hx
    · rw [List.mem_singleton.mp hx]
      decide

/-- The `location` column survives the `timestamp` step. -/
theorem mem_location_setTs (d : DataFrame) (h : locationCol ∈ d.cols) :
    locationCol ∈ (setTimestamp d).cols := by
  rcases setTimestamp_cols d with hc | hc <;> rw [hc]
  · exact h
  · exact List.mem_append.mpr (Or.inl h)

/-- C5: the enrichment/transform step is idempotent — on any well-formed
dataframe, applying `transform_data_for_rag` twice returns exactly the output
of applying it once (same columns, same rows, same content). -/
theorem c5_transform_idempotent (df : DataFrame) (hwf : dfWf df) :
    transform_data_for_rag (transform_data_for_rag df) = transform_data_for_rag df := by
  have hd1 : ∀ x ∈ (DataFrame.mk (df.cols.map normName) df.rows).cols, normName x = x := by
    intro x hx
    rcases List.mem_map.mp hx with ⟨y, _, rfl⟩
    exact normName_idem y
  have hwf2 : dfWf (addLocationCol ⟨df.cols.map normName, df.rows⟩) := by
    refine addLocationCol_wf _ fun r hr => ?_
    show r.length = (df.cols.map normName).length
    rw [List.length_map]
    exact hwf r hr
  refine transform_of_clean _ ?_ ?_ ?_ ?_ ?_
  · exact cols_fixed_setTs _ (cols_fixed_addLoc _ hd1)
  · exact mem_location_setTs _ (addLocationCol_mem_location _)
  · exact setTimestamp_stable_core _ hwf2
  · exact List.Nodup.filter _ (dropDupFirst_nodup _)
  · intro r hr
    have hp := (List.mem_filter.mp hr).2
    cases hcon : r.contains Cell.null
    · rfl
    · rw [hcon] at hp
      exact absurd hp (by decide)

/-- Witness for C5 on a concrete raw dataframe with unnormalised column
names, a duplicate row and an unparseable date. -/
theorem c5_witness :
    dfWf dfC5 ∧
      transform_data_for_rag (transform_data_for_rag dfC5) = transform_data_for_rag dfC5 :=
  ⟨by decide, c5_transform_idempotent dfC5 (by decide)⟩
